import Mathlib

/-!
Verification development for the place/location resolution subsystem of the
somali-geo-api backend: the Somalia-specific Open Location Code (OLC) composer
(`app/utils/olc_helper.py`) and the place search endpoint
(`app/api/v1/endpoints/places.py`).

Coordinates are modelled as rationals.  The third-party OLC codec
(`openlocationcode` library) is not part of the repository source; it is
modelled from the specification's contract for the GeoCode Codec (encode fails
with `InvalidArgument` out of range; decode fails with `InvalidCode` on
strings not well-formed per the OLC grammar), at the library's default code
length of 10 digits.
-/

namespace SomaliGeo

/-- The two error kinds raised by the core: `invalidArgument` for coordinates
out of range, `invalidCode` for a malformed location-code string. -/
inductive GeoError where
  | invalidArgument (msg : String) : GeoError
  | invalidCode (code : String) : GeoError
deriving DecidableEq, Repr

/-- The standard Open Location Code digit alphabet. -/
def olcAlphabet : List Char :=
  ['2', '3', '4', '5', '6', '7', '8', '9', 'C', 'F',
   'G', 'H', 'J', 'M', 'P', 'Q', 'R', 'V', 'W', 'X']

/-- Character for a digit value (values are always `< 20`). -/
def digitChar (n : Nat) : Char := olcAlphabet.getD n ' '

/-- Digit value of an alphabet character, `none` for non-alphabet characters. -/
def charDigit (c : Char) : Option Nat := olcAlphabet.indexOf? c

/-- Latitude scaled to grid rows of 1/8000 degree: `⌊(lat + 90) * 8000⌋`,
clamped below the 90-degree row (the codec emits the last cell at the pole). -/
def latScaled (lat : ℚ) : ℕ := min (⌊(lat + 90) * 8000⌋).toNat 1439999

/-- Longitude scaled to grid columns of 1/8000 degree, wrapped modulo 360
degrees (`⌊(lon + 180) * 8000⌋ mod 2880000`). -/
def lonScaled (lon : ℚ) : ℕ := ((⌊(lon + 180) * 8000⌋) % 2880000).toNat

/-- The 11 characters of a default-length (10-digit) OLC code: five base-20
latitude digits and five base-20 longitude digits, interleaved, with the `+`
separator after the eighth digit. -/
def encodeChars (lat lon : ℚ) : List Char :=
  let la := latScaled lat
  let lo := lonScaled lon
  [digitChar (la / 160000), digitChar (lo / 160000),
   digitChar (la / 8000 % 20), digitChar (lo / 8000 % 20),
   digitChar (la / 400 % 20), digitChar (lo / 400 % 20),
   digitChar (la / 20 % 20), digitChar (lo / 20 % 20),
   '+',
   digitChar (la % 20), digitChar (lo % 20)]

/-- Modelled from the spec: the GeoCode Codec's `encode` contract (the
third-party `openlocationcode` library is not in the repository source).
`encode(lat ∈ [-90,90], lon ∈ [-180,180]) → code`; fails with
`InvalidArgument` when lat/lon are out of range. -/
def olcEncode (lat lon : ℚ) : Except GeoError String :=
  if lat < -90 ∨ 90 < lat ∨ lon < -180 ∨ 180 < lon then
    .error (.invalidArgument "latitude or longitude out of range")
  else
    .ok ⟨encodeChars lat lon⟩

/-- Decoded OLC cell, as returned by `decode_olc` / `decode_somalia_olc`:
center, lo/hi bounds, code length, and (for the Somalia variant) the region
prefix when one was present. -/
structure DecodedArea where
  code : String
  latitude_center : ℚ
  longitude_center : ℚ
  latitude_lo : ℚ
  longitude_lo : ℚ
  latitude_hi : ℚ
  longitude_hi : ℚ
  code_length : ℕ
  region_code : Option String
deriving DecidableEq, Repr

/-- Reads the digit characters of a default-length full OLC back to the
scaled-latitude and scaled-longitude values; `none` when the string is not an
11-character code of alphabet digits with `+` in position 8. -/
def olcDecodeChars (cs : List Char) : Option (ℕ × ℕ) :=
  match cs with
  | [c0, c1, c2, c3, c4, c5, c6, c7, p, c8, c9] =>
    if p = '+' then
      match charDigit c0, charDigit c1, charDigit c2, charDigit c3,
            charDigit c4, charDigit c5, charDigit c6, charDigit c7,
            charDigit c8, charDigit c9 with
      | some a0, some b0, some a1, some b1, some a2, some b2, some a3,
        some b3, some a4, some b4 =>
          some (a0 * 160000 + a1 * 8000 + a2 * 400 + a3 * 20 + a4,
                b0 * 160000 + b1 * 8000 + b2 * 400 + b3 * 20 + b4)
      | _, _, _, _, _, _, _, _, _, _ => none
    else none
  | _ => none

/-- A string is a well-formed full OLC (at the default 10-digit length) when
it is 11 characters long, has the `+` separator in position 8, and every other
character is an alphabet digit. -/
def wellFormedOlc (code : String) : Prop :=
  code.toList.length = 11 ∧ code.toList.getD 8 ' ' = '+' ∧
    ∀ i, i < 11 → i ≠ 8 → code.toList.getD i ' ' ∈ olcAlphabet

/-- Modelled from the spec: the GeoCode Codec's `decode` contract wrapped by
`decode_olc` in `olc_helper.py`: decode a code to a dictionary with the cell's
center, lo/hi bounds and code length; fails with `InvalidCode` when the code
is not well-formed per the OLC grammar. -/
def decode_olc (code : String) : Except GeoError DecodedArea :=
  match olcDecodeChars code.toList with
  | none => .error (.invalidCode code)
  | some (la, lo) =>
    .ok { code := code
          latitude_center := (2 * la + 1) / 16000 - 90
          longitude_center := (2 * lo + 1) / 16000 - 180
          latitude_lo := la / 8000 - 90
          longitude_lo := lo / 8000 - 180
          latitude_hi := (la + 1) / 8000 - 90
          longitude_hi := (lo + 1) / 8000 - 180
          code_length := 10
          region_code := none }

/-- `generate_olc` from `olc_helper.py` (default code length path). -/
def generate_olc (lat lon : ℚ) : Except GeoError String := olcEncode lat lon

/-- One bounding box of the static region table in
`_get_region_from_coords`. -/
structure RegionBox where
  code : String
  lat_min : ℚ
  lat_max : ℚ
  lon_min : ℚ
  lon_max : ℚ
deriving DecidableEq, Repr

/-- The static region table of `_get_region_from_coords`, in its (insertion)
iteration order: Banadir, Hiiraan, Shabelle. -/
def somaliaRegions : List RegionBox :=
  [⟨"BNR", 1.8, 2.2, 45.0, 45.6⟩,
   ⟨"HRS", 9.0, 10.0, 43.0, 45.0⟩,
   ⟨"SHB", 2.0, 3.0, 42.0, 43.0⟩]

/-- Inclusive bounding-box membership test used by the region loop. -/
def inBox (b : RegionBox) (lat lon : ℚ) : Bool :=
  decide (b.lat_min ≤ lat) && decide (lat ≤ b.lat_max) &&
    decide (b.lon_min ≤ lon) && decide (lon ≤ b.lon_max)

/-- `_get_region_from_coords` from `olc_helper.py`: first region in table
order whose box contains the point, else `none`. -/
def _get_region_from_coords (lat lon : ℚ) : Option String :=
  (somaliaRegions.find? (fun b => inBox b lat lon)).map RegionBox.code

/-- `generate_somalia_olc` from `olc_helper.py`.  `region_code` is the
optional argument; the Python truthiness test `if region_code:` treats both
`None` and the empty string as absent. -/
def generate_somalia_olc (lat lon : ℚ) (region_code : Option String) :
    Except GeoError String :=
  (generate_olc lat lon).bind fun base_code =>
    if region_code.getD "" ≠ "" then
      .ok (region_code.getD "" ++ ":" ++ base_code)
    else
      match _get_region_from_coords lat lon with
      | some region => .ok ("SOM-" ++ region ++ ":" ++ base_code)
      | none => .ok base_code

/-- Split a character list at its first `':'`: returns the part before it and
`some` of the part after it, or the whole list and `none` when no `':'`
occurs.  Mirrors Python's `code.split(":", 1)` together with the
`":" in code` test. -/
def splitColon : List Char → List Char × Option (List Char)
  | [] => ([], none)
  | c :: cs =>
    if c = ':' then ([], some cs)
    else
      let r := splitColon cs
      (c :: r.1, r.2)

/-- `decode_somalia_olc` from `olc_helper.py`: when the code contains a `':'`,
split at the first one, decode the remainder as an OLC and attach the part
before the `':'` as `region_code`; otherwise decode the whole string. -/
def decode_somalia_olc (code : String) : Except GeoError DecodedArea :=
  match splitColon code.toList with
  | (_, none) => decode_olc code
  | (region_part, some olc_part) =>
    (decode_olc ⟨olc_part⟩).map fun r => { r with region_code := some ⟨region_part⟩ }

/-- The OLC portion of a composite code: the part after the first `':'` when
one is present, the whole string otherwise. -/
def olcPortion (code : String) : String :=
  match splitColon code.toList with
  | (_, none) => code
  | (_, some post) => ⟨post⟩

/-! ### Place search (`app/api/v1/endpoints/places.py`) -/

/-- A district row (`models.District`): `code` is a non-optional string (the
Python truthiness fallback in search fires when it is empty), `aliases` is an
optional JSON list, `centroid` an optional lat/lon pair. -/
structure District where
  name : String
  code : String
  region_name : String
  population : Option ℕ
  aliases : Option (List String)
  centroid : Option (ℚ × ℚ)
deriving DecidableEq, Repr

/-- A region row (`models.Region`): the fields search reads. -/
structure Region where
  name : String
  code : String
  population : Option ℕ
deriving DecidableEq, Repr

/-- The read-only dataset snapshot the search endpoint queries, rows in table
retrieval order. -/
structure Dataset where
  districts : List District
  regions : List Region
deriving Repr

/-- One entry of the search response (`models.PlaceSearchResult`). -/
structure PlaceSearchResult where
  id : String
  name : String
  region : String
  type : String
  aliases : Option (List String)
  centroid : Option (ℚ × ℚ)
  population : Option ℕ
deriving DecidableEq, Repr

/-- Python's `str.lower()` on the character sequence. -/
def lowerStr (s : String) : String := ⟨s.toList.map Char.toLower⟩

/-- `needle` is a prefix of `hay` (Boolean). -/
def prefixB : List Char → List Char → Bool
  | [], _ => true
  | _ :: _, [] => false
  | a :: as, b :: bs => a = b && prefixB as bs

/-- `needle` occurs as a contiguous substring of `hay` (Boolean); Python's
`needle in hay`. -/
def infixB (needle : List Char) : List Char → Bool
  | [] => prefixB needle []
  | b :: bs => prefixB needle (b :: bs) || infixB needle bs

/-- Python `q in s.lower()` for an already-lowercased query `q`.  Also models
the pushed-down SQL filter `func.lower(col).contains(q)`. -/
def containsLower (q : String) (s : String) : Bool :=
  infixB q.toList (lowerStr s).toList

/-- The fetch filter of the district query: name or region name contains the
lowercased query. -/
def districtFetchCond (q : String) (d : District) : Bool :=
  containsLower q d.name || containsLower q d.region_name

/-- The in-loop `matches` re-check: name, region name, or (only when those
fail) any alias contains the query, case-insensitively. -/
def districtMatches (q : String) (d : District) : Bool :=
  (containsLower q d.name || containsLower q d.region_name) ||
    (d.aliases.getD []).any (fun a => containsLower q a)

/-- The computed district identity:
`district.code or f"SOM-{district.region_name[:3].upper()}-{district.name[:3].upper()}"`
(Python `or` falls back exactly when `code` is empty). -/
def districtId (d : District) : String :=
  if d.code ≠ "" then d.code
  else "SOM-" ++ (d.region_name.take 3).toUpper ++ "-" ++ (d.name.take 3).toUpper

/-- The `PlaceSearchResult` built for a matching district. -/
def mkDistrictResult (d : District) : PlaceSearchResult :=
  { id := districtId d
    name := d.name
    region := d.region_name
    type := "district"
    aliases := d.aliases
    centroid := d.centroid
    population := d.population }

/-- The `PlaceSearchResult` built for a matching region. -/
def mkRegionResult (r : Region) : PlaceSearchResult :=
  { id := r.code
    name := r.name
    region := r.name
    type := "region"
    aliases := none
    centroid := none
    population := r.population }

/-- The district loop of `search_places`: `seen` is the set of ids already
emitted, `count` the number of results assembled so far; a matching district
with an unseen id is appended and, when the result count reaches `limit`, the
loop breaks (Python appends first, then tests `len(results) >= limit`).
Returns the appended results together with the final seen set. -/
def districtScan (q : String) (limit : ℕ) :
    List District → List String → ℕ → List PlaceSearchResult × List String
  | [], seen, _ => ([], seen)
  | d :: rest, seen, count =>
    if districtMatches q d then
      if districtId d ∈ seen then districtScan q limit rest seen count
      else if limit ≤ count + 1 then ([mkDistrictResult d], districtId d :: seen)
      else
        let r := districtScan q limit rest (districtId d :: seen) (count + 1)
        (mkDistrictResult d :: r.1, r.2)
    else districtScan q limit rest seen count

/-- The region loop of `search_places`: each fetched region whose code is
unseen is appended (no break — the fetch itself is capped). -/
def regionScan : List Region → List String → List PlaceSearchResult
  | [], _ => []
  | r :: rest, seen =>
    if r.code ∈ seen then regionScan rest seen
    else mkRegionResult r :: regionScan rest (r.code :: seen)

/-- The district candidates fetched from storage: rows passing the
name/region-name filter, capped at `limit * 2`. -/
def districtCandidates (db : Dataset) (q : String) (limit : ℕ) : List District :=
  (db.districts.filter (districtFetchCond q)).take (limit * 2)

/-- The district phase of `search_places`: scan the fetched candidates with
an empty seen set. -/
def districtPhase (db : Dataset) (q : String) (limit : ℕ) :
    List PlaceSearchResult × List String :=
  districtScan q limit (districtCandidates db q limit) [] 0

/-- The region candidates fetched when `numDistrictResults < limit`: rows
whose name contains the query, capped at `limit - numDistrictResults`. -/
def regionCandidates (db : Dataset) (q : String) (budget : ℕ) : List Region :=
  (db.regions.filter (fun r => containsLower q r.name)).take budget

/-- `search_places` from `places.py`: lowercase the query, scan districts,
then (only when below the limit) scan regions; results in assembly order. -/
def search_places (db : Dataset) (name : String) (limit : ℕ) :
    List PlaceSearchResult :=
  let q := lowerStr name
  let dres := districtPhase db q limit
  if dres.1.length < limit then
    dres.1 ++ regionScan (regionCandidates db q (limit - dres.1.length)) dres.2
  else dres.1

/-- Test dataset for the alias-matching scenario of the spec: district
"Beledweyne" in region "Hiiraan" with alias "Beletweyne" (the alias differs
from the district name in one character, so it is not a substring of it). -/
def hiiraanDataset : Dataset :=
  { districts := [{ name := "Beledweyne", code := "", region_name := "Hiiraan",
                    population := none, aliases := some ["Beletweyne"],
                    centroid := none }],
    regions := [{ name := "Hiiraan", code := "SOM-HIR", population := none }] }

/-- Test dataset from the spec's concrete scenarios: region Banadir and
district Mogadishu (alias "Xamar"). -/
def banadirDataset : Dataset :=
  { districts := [{ name := "Mogadishu", code := "SOM-BNR-MOG",
                    region_name := "Banadir", population := none,
                    aliases := some ["Xamar"], centroid := none }],
    regions := [{ name := "Banadir", code := "SOM-BNR", population := none }] }

/-! ### Codec lemmas -/

lemma latScaled_le (lat : ℚ) : latScaled lat ≤ 1439999 := Nat.min_le_right _ _

lemma lonScaled_lt (lon : ℚ) : lonScaled lon < 2880000 := by
  unfold lonScaled
  have h1 := Int.emod_lt_of_pos (⌊(lon + 180) * 8000⌋) (by norm_num : (0:ℤ) < 2880000)
  have h2 := Int.emod_nonneg (⌊(lon + 180) * 8000⌋) (by norm_num : (2880000:ℤ) ≠ 0)
  omega

lemma charDigit_digitChar (n : ℕ) (h : n < 20) : charDigit (digitChar n) = some n := by
  interval_cases n <;> decide

lemma digitChar_ne_colon (n : ℕ) : digitChar n ≠ ':' := by
  have h20 : olcAlphabet.length = 20 := by decide
  unfold digitChar
  rcases Nat.lt_or_ge n 20 with h | h
  · interval_cases n <;> decide
  · rw [List.getD_eq_default _ _ (by omega)]
    decide

lemma colon_not_mem_encodeChars (lat lon : ℚ) : ':' ∉ encodeChars lat lon := by
  unfold encodeChars
  intro h
  simp only [List.mem_cons, List.not_mem_nil, or_false] at h
  rcases h with h|h|h|h|h|h|h|h|h|h|h <;>
    first
      | exact digitChar_ne_colon _ h.symm
      | exact absurd h (by decide)

lemma olcDecodeChars_explicit (la lo : ℕ) (hla : la ≤ 1439999) (hlo : lo < 2880000) :
    olcDecodeChars
      [digitChar (la / 160000), digitChar (lo / 160000),
       digitChar (la / 8000 % 20), digitChar (lo / 8000 % 20),
       digitChar (la / 400 % 20), digitChar (lo / 400 % 20),
       digitChar (la / 20 % 20), digitChar (lo / 20 % 20),
       '+',
       digitChar (la % 20), digitChar (lo % 20)] = some (la, lo) := by
  simp only [olcDecodeChars]
  rw [charDigit_digitChar (la / 160000) (by omega),
      charDigit_digitChar (lo / 160000) (by omega),
      charDigit_digitChar (la / 8000 % 20) (by omega),
      charDigit_digitChar (lo / 8000 % 20) (by omega),
      charDigit_digitChar (la / 400 % 20) (by omega),
      charDigit_digitChar (lo / 400 % 20) (by omega),
      charDigit_digitChar (la / 20 % 20) (by omega),
      charDigit_digitChar (lo / 20 % 20) (by omega),
      charDigit_digitChar (la % 20) (by omega),
      charDigit_digitChar (lo % 20) (by omega)]
  simp only [ite_true, Option.some.injEq, Prod.mk.injEq]
  omega

lemma olcDecodeChars_encodeChars (lat lon : ℚ) :
    olcDecodeChars (encodeChars lat lon) = some (latScaled lat, lonScaled lon) :=
  olcDecodeChars_explicit (latScaled lat) (lonScaled lon) (latScaled_le lat) (lonScaled_lt lon)

lemma toList_mk (cs : List Char) : (⟨cs⟩ : String).toList = cs := rfl

lemma mk_toList (s : String) : (⟨s.toList⟩ : String) = s := rfl

lemma decode_olc_encodeChars (lat lon : ℚ) :
    decode_olc ⟨encodeChars lat lon⟩ =
      .ok { code := ⟨encodeChars lat lon⟩
            latitude_center := (2 * latScaled lat + 1) / 16000 - 90
            longitude_center := (2 * lonScaled lon + 1) / 16000 - 180
            latitude_lo := latScaled lat / 8000 - 90
            longitude_lo := lonScaled lon / 8000 - 180
            latitude_hi := (latScaled lat + 1) / 8000 - 90
            longitude_hi := (lonScaled lon + 1) / 8000 - 180
            code_length := 10
            region_code := none } := by
  unfold decode_olc
  rw [toList_mk, olcDecodeChars_encodeChars]

lemma charDigit_colon : charDigit ':' = none := by decide

lemma olcDecodeChars_of_mem_colon (cs : List Char) (h : ':' ∈ cs) :
    olcDecodeChars cs = none := by
  unfold olcDecodeChars
  split
  · next c0 c1 c2 c3 c4 c5 c6 c7 p c8 c9 =>
    simp only [List.mem_cons, List.not_mem_nil, or_false] at h
    by_cases hp : p = '+'
    · rw [if_pos hp]
      split
      · next a0 b0 a1 b1 a2 b2 a3 b3 a4 b4 h0 h1 h2 h3 h4 h5 h6 h7 h8 h9 =>
        exfalso
        rcases h with h|h|h|h|h|h|h|h|h|h|h <;> subst h <;>
          simp_all [charDigit_colon]
      · rfl
    · rw [if_neg hp]
  · rfl

lemma decode_olc_error_of_mem_colon (code : String) (h : ':' ∈ code.toList) :
    decode_olc code = .error (.invalidCode code) := by
  unfold decode_olc
  rw [olcDecodeChars_of_mem_colon _ h]

/-! ### `splitColon` lemmas -/

lemma splitColon_of_not_mem (cs : List Char) (h : ':' ∉ cs) :
    splitColon cs = (cs, none) := by
  induction cs with
  | nil => rfl
  | cons c cs ih =>
    have hc : ¬ c = ':' := by
      intro hc
      exact h (by rw [hc]; exact List.mem_cons_self _ _)
    have hcs : ':' ∉ cs := fun hm => h (List.mem_cons_of_mem c hm)
    simp only [splitColon, if_neg hc]
    rw [ih hcs]

lemma splitColon_append (pre post : List Char) (h : ':' ∉ pre) :
    splitColon (pre ++ ':' :: post) = (pre, some post) := by
  induction pre with
  | nil => simp [splitColon]
  | cons c cs ih =>
    have hc : ¬ c = ':' := by
      intro hc
      exact h (by rw [hc]; exact List.mem_cons_self _ _)
    have hcs : ':' ∉ cs := fun hm => h (List.mem_cons_of_mem c hm)
    rw [List.cons_append]
    simp only [splitColon, if_neg hc]
    rw [ih hcs]

lemma splitColon_some (cs : List Char) : ∀ pre post : List Char,
    splitColon cs = (pre, some post) → cs = pre ++ ':' :: post ∧ ':' ∉ pre := by
  induction cs with
  | nil =>
    intro pre post h
    simp [splitColon] at h
  | cons c cs ih =>
    intro pre post h
    by_cases hc : c = ':'
    · subst hc
      simp [splitColon] at h
      obtain ⟨h1, h2⟩ := h
      subst h1
      subst h2
      simp
    · simp only [splitColon, if_neg hc] at h
      rw [Prod.mk.injEq] at h
      obtain ⟨h1, h2⟩ := h
      obtain ⟨hpre, hpremem⟩ := ih (splitColon cs).1 post (by
        rw [← h2])
      constructor
      · rw [← h1, List.cons_append, ← hpre]
      · rw [← h1]
        intro hm
        rcases List.mem_cons.mp hm with h' | h'
        · exact hc h'.symm
        · exact hpremem h'

lemma splitColon_none (cs : List Char) : ∀ pre : List Char,
    splitColon cs = (pre, none) → pre = cs ∧ ':' ∉ cs := by
  induction cs with
  | nil =>
    intro pre h
    rw [splitColon, Prod.mk.injEq] at h
    simp [← h.1]
  | cons c cs ih =>
    intro pre h
    by_cases hc : c = ':'
    · subst hc
      simp [splitColon] at h
    · simp only [splitColon, if_neg hc] at h
      rw [Prod.mk.injEq] at h
      obtain ⟨h1, h2⟩ := h
      obtain ⟨hpre, hmem⟩ := ih (splitColon cs).1 (by rw [← h2])
      constructor
      · rw [← h1, hpre]
      · intro hm
        rcases List.mem_cons.mp hm with h' | h'
        · exact hc h'.symm
        · exact hmem h'

/-! ### Composer helper lemmas -/

lemma generate_olc_ok (lat lon : ℚ) (h1 : -90 ≤ lat) (h2 : lat ≤ 90)
    (h3 : -180 ≤ lon) (h4 : lon ≤ 180) :
    generate_olc lat lon = .ok ⟨encodeChars lat lon⟩ := by
  have hg : ¬(lat < -90 ∨ 90 < lat ∨ lon < -180 ∨ 180 < lon) := by
    push_neg
    exact ⟨h1, h2, h3, h4⟩
  unfold generate_olc olcEncode
  rw [if_neg hg]

lemma decode_olc_error (code : String) (e : GeoError)
    (h : decode_olc code = .error e) : e = .invalidCode code := by
  unfold decode_olc at h
  split at h
  · injection h with h
    exact h.symm
  · cases h

lemma toList_append_colon (rc : String) (cs : List Char) :
    (rc ++ ":" ++ (⟨cs⟩ : String)).toList = rc.toList ++ ':' :: cs := by
  show (rc ++ ":" ++ (⟨cs⟩ : String)).data = rc.data ++ ':' :: cs
  rw [String.data_append, String.data_append, List.append_assoc]
  rfl

lemma charDigit_isSome_of_mem : ∀ c ∈ olcAlphabet, (charDigit c).isSome := by
  decide

lemma decode_olc_ok_of_wellFormed (code : String) (h : wellFormedOlc code) :
    ∃ area, decode_olc code = .ok area ∧ area.region_code = none := by
  obtain ⟨hlen, hsep, hdig⟩ := h
  obtain ⟨cs, hcs⟩ : ∃ cs, code.toList = cs := ⟨_, rfl⟩
  rw [hcs] at hlen hsep hdig
  rcases cs with _ | ⟨c0, cs⟩
  · simp at hlen
  rcases cs with _ | ⟨c1, cs⟩
  · simp at hlen
  rcases cs with _ | ⟨c2, cs⟩
  · simp at hlen
  rcases cs with _ | ⟨c3, cs⟩
  · simp at hlen
  rcases cs with _ | ⟨c4, cs⟩
  · simp at hlen
  rcases cs with _ | ⟨c5, cs⟩
  · simp at hlen
  rcases cs with _ | ⟨c6, cs⟩
  · simp at hlen
  rcases cs with _ | ⟨c7, cs⟩
  · simp at hlen
  rcases cs with _ | ⟨c8, cs⟩
  · simp at hlen
  rcases cs with _ | ⟨c9, cs⟩
  · simp at hlen
  rcases cs with _ | ⟨c10, cs⟩
  · simp at hlen
  rcases cs with _ | ⟨c11, cs⟩
  swap
  · simp at hlen
  have h8 : c8 = '+' := by simpa using hsep
  have m0 : c0 ∈ olcAlphabet := by simpa using hdig 0 (by norm_num) (by norm_num)
  have m1 : c1 ∈ olcAlphabet := by simpa using hdig 1 (by norm_num) (by norm_num)
  have m2 : c2 ∈ olcAlphabet := by simpa using hdig 2 (by norm_num) (by norm_num)
  have m3 : c3 ∈ olcAlphabet := by simpa using hdig 3 (by norm_num) (by norm_num)
  have m4 : c4 ∈ olcAlphabet := by simpa using hdig 4 (by norm_num) (by norm_num)
  have m5 : c5 ∈ olcAlphabet := by simpa using hdig 5 (by norm_num) (by norm_num)
  have m6 : c6 ∈ olcAlphabet := by simpa using hdig 6 (by norm_num) (by norm_num)
  have m7 : c7 ∈ olcAlphabet := by simpa using hdig 7 (by norm_num) (by norm_num)
  have m9 : c9 ∈ olcAlphabet := by simpa using hdig 9 (by norm_num) (by norm_num)
  have m10 : c10 ∈ olcAlphabet := by simpa using hdig 10 (by norm_num) (by norm_num)
  obtain ⟨v0, hv0⟩ := Option.isSome_iff_exists.mp (charDigit_isSome_of_mem _ m0)
  obtain ⟨v1, hv1⟩ := Option.isSome_iff_exists.mp (charDigit_isSome_of_mem _ m1)
  obtain ⟨v2, hv2⟩ := Option.isSome_iff_exists.mp (charDigit_isSome_of_mem _ m2)
  obtain ⟨v3, hv3⟩ := Option.isSome_iff_exists.mp (charDigit_isSome_of_mem _ m3)
  obtain ⟨v4, hv4⟩ := Option.isSome_iff_exists.mp (charDigit_isSome_of_mem _ m4)
  obtain ⟨v5, hv5⟩ := Option.isSome_iff_exists.mp (charDigit_isSome_of_mem _ m5)
  obtain ⟨v6, hv6⟩ := Option.isSome_iff_exists.mp (charDigit_isSome_of_mem _ m6)
  obtain ⟨v7, hv7⟩ := Option.isSome_iff_exists.mp (charDigit_isSome_of_mem _ m7)
  obtain ⟨v9, hv9⟩ := Option.isSome_iff_exists.mp (charDigit_isSome_of_mem _ m9)
  obtain ⟨v10, hv10⟩ := Option.isSome_iff_exists.mp (charDigit_isSome_of_mem _ m10)
  subst h8
  unfold decode_olc
  rw [hcs]
  simp only [olcDecodeChars, ite_true]
  rw [hv0, hv1, hv2, hv3, hv4, hv5, hv6, hv7, hv9, hv10]
  exact ⟨_, rfl, rfl⟩

/-! ### Region locator characterization and concrete evaluations -/

lemma inBox_iff (b : RegionBox) (lat lon : ℚ) :
    inBox b lat lon = true ↔
      b.lat_min ≤ lat ∧ lat ≤ b.lat_max ∧ b.lon_min ≤ lon ∧ lon ≤ b.lon_max := by
  unfold inBox
  simp [Bool.and_eq_true, decide_eq_true_eq, and_assoc]

lemma inBox_true (b : RegionBox) (lat lon : ℚ)
    (h : b.lat_min ≤ lat ∧ lat ≤ b.lat_max ∧ b.lon_min ≤ lon ∧ lon ≤ b.lon_max) :
    inBox b lat lon = true := (inBox_iff b lat lon).mpr h

lemma inBox_false (b : RegionBox) (lat lon : ℚ)
    (h : ¬(b.lat_min ≤ lat ∧ lat ≤ b.lat_max ∧ b.lon_min ≤ lon ∧ lon ≤ b.lon_max)) :
    inBox b lat lon = false := by
  rcases hb : inBox b lat lon
  · rfl
  · exact absurd ((inBox_iff b lat lon).mp hb) h

lemma locate_eq (lat lon : ℚ) :
    _get_region_from_coords lat lon =
      if 1.8 ≤ lat ∧ lat ≤ 2.2 ∧ 45.0 ≤ lon ∧ lon ≤ 45.6 then some "BNR"
      else if 9.0 ≤ lat ∧ lat ≤ 10.0 ∧ 43.0 ≤ lon ∧ lon ≤ 45.0 then some "HRS"
      else if 2.0 ≤ lat ∧ lat ≤ 3.0 ∧ 42.0 ≤ lon ∧ lon ≤ 43.0 then some "SHB"
      else none := by
  unfold _get_region_from_coords somaliaRegions
  by_cases h1 : 1.8 ≤ lat ∧ lat ≤ 2.2 ∧ 45.0 ≤ lon ∧ lon ≤ 45.6
  · have hb1 := inBox_true ⟨"BNR", 1.8, 2.2, 45.0, 45.6⟩ lat lon (by exact h1)
    rw [if_pos h1]
    simp only [List.find?, hb1]
    rfl
  · have hb1 := inBox_false ⟨"BNR", 1.8, 2.2, 45.0, 45.6⟩ lat lon (by exact h1)
    rw [if_neg h1]
    by_cases h2 : 9.0 ≤ lat ∧ lat ≤ 10.0 ∧ 43.0 ≤ lon ∧ lon ≤ 45.0
    · have hb2 := inBox_true ⟨"HRS", 9.0, 10.0, 43.0, 45.0⟩ lat lon (by exact h2)
      rw [if_pos h2]
      simp only [List.find?, hb1, hb2]
      rfl
    · have hb2 := inBox_false ⟨"HRS", 9.0, 10.0, 43.0, 45.0⟩ lat lon (by exact h2)
      rw [if_neg h2]
      by_cases h3 : 2.0 ≤ lat ∧ lat ≤ 3.0 ∧ 42.0 ≤ lon ∧ lon ≤ 43.0
      · have hb3 := inBox_true ⟨"SHB", 2.0, 3.0, 42.0, 43.0⟩ lat lon (by exact h3)
        rw [if_pos h3]
        simp only [List.find?, hb1, hb2, hb3]
        rfl
      · have hb3 := inBox_false ⟨"SHB", 2.0, 3.0, 42.0, 43.0⟩ lat lon (by exact h3)
        rw [if_neg h3]
        simp only [List.find?, hb1, hb2, hb3]
        rfl

lemma locate_origin : _get_region_from_coords 0 0 = none := by
  rw [locate_eq, if_neg (by norm_num), if_neg (by norm_num), if_neg (by norm_num)]

lemma locate_mogadishu : _get_region_from_coords 2.0469 45.3182 = some "BNR" := by
  rw [locate_eq, if_pos (by norm_num)]

lemma latScaled_origin : latScaled 0 = 720000 := by
  unfold latScaled
  have h1 : ((0:ℚ) + 90) * 8000 = 720000 := by norm_num
  have h2 : (⌊(720000 : ℚ)⌋ : ℤ) = 720000 := by
    rw [Int.floor_eq_iff] <;> norm_num
  rw [h1, h2]
  omega

lemma lonScaled_origin : lonScaled 0 = 1440000 := by
  unfold lonScaled
  have h1 : ((0:ℚ) + 180) * 8000 = 1440000 := by norm_num
  have h2 : (⌊(1440000 : ℚ)⌋ : ℤ) = 1440000 := by
    rw [Int.floor_eq_iff] <;> norm_num
  rw [h1, h2]
  decide

lemma latScaled_mogadishu : latScaled 2.0469 = 736375 := by
  unfold latScaled
  have h1 : ((2.0469:ℚ) + 90) * 8000 = 3681876 / 5 := by norm_num
  have h2 : (⌊(3681876 / 5 : ℚ)⌋ : ℤ) = 736375 := by
    rw [Int.floor_eq_iff] <;> norm_num
  rw [h1, h2]
  omega

lemma lonScaled_mogadishu : lonScaled 45.3182 = 1802545 := by
  unfold lonScaled
  have h1 : ((45.3182:ℚ) + 180) * 8000 = 9012728 / 5 := by norm_num
  have h2 : (⌊(9012728 / 5 : ℚ)⌋ : ℤ) = 1802545 := by
    rw [Int.floor_eq_iff] <;> norm_num
  rw [h1, h2]
  decide

lemma encodeChars_origin : encodeChars 0 0 = "6FG22222+22".toList := by
  unfold encodeChars
  rw [latScaled_origin, lonScaled_origin]
  decide

lemma encodeChars_mogadishu : encodeChars 2.0469 45.3182 = "6HJ728W9+Q7".toList := by
  unfold encodeChars
  rw [latScaled_mogadishu, lonScaled_mogadishu]
  decide

lemma generate_olc_origin : generate_olc 0 0 = .ok "6FG22222+22" := by
  rw [generate_olc_ok 0 0 (by norm_num) (by norm_num) (by norm_num) (by norm_num),
    encodeChars_origin]
  rfl

lemma generate_olc_mogadishu : generate_olc 2.0469 45.3182 = .ok "6HJ728W9+Q7" := by
  rw [generate_olc_ok 2.0469 45.3182 (by norm_num) (by norm_num) (by norm_num)
    (by norm_num), encodeChars_mogadishu]
  rfl

lemma decode_olc_6FG : decode_olc "6FG22222+22" =
    .ok { code := "6FG22222+22"
          latitude_center := 1 / 16000
          longitude_center := 1 / 16000
          latitude_lo := 0
          longitude_lo := 0
          latitude_hi := 1 / 8000
          longitude_hi := 1 / 8000
          code_length := 10
          region_code := none } := by
  have hd : olcDecodeChars "6FG22222+22".toList = some (720000, 1440000) := by
    decide
  unfold decode_olc
  rw [hd]
  simp only [Except.ok.injEq, DecodedArea.mk.injEq]
  norm_num

/-! ### Claim theorems for the codec and composer -/

/-- C2: for every latitude outside `[-90, 90]` or longitude outside
`[-180, 180]`, the encode operation — and hence compose, which calls it —
fails with `InvalidArgument` rather than returning a code. -/
theorem encode_out_of_range_invalid_argument (lat lon : ℚ)
    (h : lat < -90 ∨ 90 < lat ∨ lon < -180 ∨ 180 < lon) :
    generate_olc lat lon =
        .error (.invalidArgument "latitude or longitude out of range") ∧
      ∀ rc : Option String, generate_somalia_olc lat lon rc =
        .error (.invalidArgument "latitude or longitude out of range") := by
  have h1 : generate_olc lat lon =
      .error (.invalidArgument "latitude or longitude out of range") := by
    unfold generate_olc olcEncode
    rw [if_pos h]
  refine ⟨h1, fun rc => ?_⟩
  unfold generate_somalia_olc
  rw [h1]
  rfl

/-- Witness for C2: `compose(91.0, 0.0)` fails with `InvalidArgument`. -/
theorem encode_out_of_range_invalid_argument_witness :
    generate_somalia_olc 91 0 none =
      .error (.invalidArgument "latitude or longitude out of range") :=
  (encode_out_of_range_invalid_argument 91 0
    (Or.inr (Or.inl (by norm_num)))).2 none

/-- C3: for in-range coordinates and a non-empty region code containing no
`':'`, `parse(compose(lat, lon, regionCode))` succeeds, recovers
`region_code = regionCode`, and its decoded center lies within the cell that
`encode(lat, lon)` denotes. -/
theorem composer_round_trip (lat lon : ℚ) (rc : String)
    (hlat1 : -90 ≤ lat) (hlat2 : lat ≤ 90)
    (hlon1 : -180 ≤ lon) (hlon2 : lon ≤ 180)
    (hrc : rc ≠ "") (hrcolon : ':' ∉ rc.toList) :
    ∃ (code base : String) (cell area : DecodedArea),
      generate_somalia_olc lat lon (some rc) = .ok code ∧
      generate_olc lat lon = .ok base ∧
      decode_olc base = .ok cell ∧
      decode_somalia_olc code = .ok area ∧
      area.region_code = some rc ∧
      cell.latitude_lo ≤ area.latitude_center ∧
      area.latitude_center ≤ cell.latitude_hi ∧
      cell.longitude_lo ≤ area.longitude_center ∧
      area.longitude_center ≤ cell.longitude_hi := by
  have hbase := generate_olc_ok lat lon hlat1 hlat2 hlon1 hlon2
  have hcode : generate_somalia_olc lat lon (some rc) =
      .ok (rc ++ ":" ++ ⟨encodeChars lat lon⟩) := by
    unfold generate_somalia_olc
    rw [hbase]
    simp only [Except.bind, Option.getD]
    rw [if_pos hrc]
  have hcell := decode_olc_encodeChars lat lon
  have hsplit : splitColon (rc ++ ":" ++ (⟨encodeChars lat lon⟩ : String)).toList =
      (rc.toList, some (encodeChars lat lon)) := by
    rw [toList_append_colon, splitColon_append _ _ hrcolon]
  have harea : decode_somalia_olc (rc ++ ":" ++ ⟨encodeChars lat lon⟩) =
      .ok { code := (⟨encodeChars lat lon⟩ : String)
            latitude_center := (2 * latScaled lat + 1) / 16000 - 90
            longitude_center := (2 * lonScaled lon + 1) / 16000 - 180
            latitude_lo := latScaled lat / 8000 - 90
            longitude_lo := lonScaled lon / 8000 - 180
            latitude_hi := (latScaled lat + 1) / 8000 - 90
            longitude_hi := (lonScaled lon + 1) / 8000 - 180
            code_length := 10
            region_code := some rc } := by
    unfold decode_somalia_olc
    rw [hsplit]
    show (decode_olc ⟨encodeChars lat lon⟩).map _ = _
    rw [hcell]
    rfl
  have hla0 : (0:ℚ) ≤ (latScaled lat : ℚ) := by positivity
  have hlo0 : (0:ℚ) ≤ (lonScaled lon : ℚ) := by positivity
  refine ⟨_, _, _, _, hcode, hbase, hcell, harea, rfl, ?_, ?_, ?_, ?_⟩ <;>
      simp only [] <;>
      rw [sub_le_sub_iff_right, div_le_div_iff (by norm_num) (by norm_num)] <;>
      ring_nf <;>
      linarith

/-- Witness for C3 at `(2.0469, 45.3182)` with region code `"SOM-BNR"`. -/
theorem composer_round_trip_witness :
    ∃ (code base : String) (cell area : DecodedArea),
      generate_somalia_olc 2.0469 45.3182 (some "SOM-BNR") = .ok code ∧
      generate_olc 2.0469 45.3182 = .ok base ∧
      decode_olc base = .ok cell ∧
      decode_somalia_olc code = .ok area ∧
      area.region_code = some "SOM-BNR" ∧
      cell.latitude_lo ≤ area.latitude_center ∧
      area.latitude_center ≤ cell.latitude_hi ∧
      cell.longitude_lo ≤ area.longitude_center ∧
      area.longitude_center ≤ cell.longitude_hi :=
  composer_round_trip 2.0469 45.3182 "SOM-BNR" (by norm_num) (by norm_num)
    (by norm_num) (by norm_num) (by decide) (by decide)

/-- C6 counterexample: supplying the empty string as `regionCode` does not
yield `"{regionCode}:{base}"`; the Python truthiness test skips the supplied
prefix and falls through (here to the unprefixed base, since `(0, 0)` is in no
region box). -/
theorem compose_empty_region_code_counterexample :
    generate_somalia_olc 0 0 (some "") = .ok "6FG22222+22" ∧
      ("6FG22222+22" : String) ≠ "" ++ ":" ++ "6FG22222+22" := by
  constructor
  · unfold generate_somalia_olc
    rw [generate_olc_origin]
    simp only [Except.bind, Option.getD]
    rw [if_neg (by simp), locate_origin]
  · decide

/-- C6 (amended): `compose(lat, lon, regionCode)` returns
`"{regionCode}:{base}"` whenever `regionCode` is supplied and non-empty
(without consulting the region locator); when it is absent or empty, it
returns `"SOM-{R}:{base}"` when the locator yields `R`, and the unprefixed
base code when the locator yields `none`. -/
theorem compose_region_code_rule (lat lon : ℚ)
    (hlat1 : -90 ≤ lat) (hlat2 : lat ≤ 90)
    (hlon1 : -180 ≤ lon) (hlon2 : lon ≤ 180) :
    ∃ base : String, generate_olc lat lon = .ok base ∧
      (∀ rc : String, rc ≠ "" →
        generate_somalia_olc lat lon (some rc) = .ok (rc ++ ":" ++ base)) ∧
      (∀ rc : Option String, rc.getD "" = "" →
        generate_somalia_olc lat lon rc =
          match _get_region_from_coords lat lon with
          | some r => .ok ("SOM-" ++ r ++ ":" ++ base)
          | none => .ok base) := by
  have hbase := generate_olc_ok lat lon hlat1 hlat2 hlon1 hlon2
  refine ⟨_, hbase, fun rc hrc => ?_, fun rc hrc => ?_⟩
  · unfold generate_somalia_olc
    rw [hbase]
    simp only [Except.bind, Option.getD]
    rw [if_pos hrc]
  · unfold generate_somalia_olc
    rw [hbase]
    simp only [Except.bind]
    rw [if_neg (by simpa using hrc)]

/-- Witness for C6 (amended), at `(2.0469, 45.3182)`: a supplied non-empty
prefix is used verbatim even though the locator would have yielded `BNR`. -/
theorem compose_region_code_rule_witness :
    generate_somalia_olc 2.0469 45.3182 (some "REG") = .ok "REG:6HJ728W9+Q7" := by
  obtain ⟨base, hb, h1, _⟩ :=
    compose_region_code_rule 2.0469 45.3182 (by norm_num) (by norm_num)
      (by norm_num) (by norm_num)
  have hbase : base = "6HJ728W9+Q7" := by
    rw [generate_olc_mogadishu] at hb
    exact (Except.ok.inj hb).symm
  rw [h1 "REG" (by decide), hbase]
  exact congrArg Except.ok (by decide)

/-- C7: `parse` fails (always with `InvalidCode`) exactly when the OLC
portion fails to decode; more than one `':'` forces such a failure; with
exactly one `':'` and a decodable remainder it succeeds and attaches the part
before the `':'` as `region_code`; with no `':'` it decodes the whole string
and never fails on a well-formed full OLC. -/
theorem parse_failure_characterization (code : String) :
    ((∃ e, decode_somalia_olc code = .error e) ↔
      (∃ e, decode_olc (olcPortion code) = .error e)) ∧
    (∀ e, decode_somalia_olc code = .error e → ∃ s, e = .invalidCode s) ∧
    (2 ≤ code.toList.count ':' →
      ∃ s, decode_somalia_olc code = .error (.invalidCode s)) ∧
    (∀ pre post : List Char, code.toList = pre ++ ':' :: post → ':' ∉ pre →
      ∀ area, decode_olc ⟨post⟩ = .ok area →
        decode_somalia_olc code = .ok { area with region_code := some ⟨pre⟩ }) ∧
    (':' ∉ code.toList →
      decode_somalia_olc code = decode_olc code ∧
      (wellFormedOlc code →
        ∃ area, decode_somalia_olc code = .ok area ∧ area.region_code = none)) := by
  rcases hsp : splitColon code.toList with ⟨pre, po⟩
  cases po with
  | none =>
    obtain ⟨hpre, hnomem⟩ := splitColon_none code.toList pre hsp
    have hparse : decode_somalia_olc code = decode_olc code := by
      unfold decode_somalia_olc
      rw [hsp]
    have hport : olcPortion code = code := by
      unfold olcPortion
      rw [hsp]
    refine ⟨by rw [hparse, hport], ?_, ?_, ?_, ?_⟩
    · intro e he
      rw [hparse] at he
      exact ⟨code, decode_olc_error code e he⟩
    · intro h2
      rw [List.count_eq_zero_of_not_mem hnomem] at h2
      omega
    · intro pre' post' hdec _ _ _
      exact absurd (hdec ▸ List.mem_append_right pre' (List.mem_cons_self ':' post'))
        hnomem
    · intro _
      refine ⟨hparse, fun hwf => ?_⟩
      obtain ⟨area, ha, hr⟩ := decode_olc_ok_of_wellFormed code hwf
      exact ⟨area, hparse ▸ ha, hr⟩
  | some post =>
    obtain ⟨hdecomp, hnopre⟩ := splitColon_some code.toList pre post hsp
    have hparse : decode_somalia_olc code =
        (decode_olc ⟨post⟩).map fun r => { r with region_code := some ⟨pre⟩ } := by
      unfold decode_somalia_olc
      rw [hsp]
    have hport : olcPortion code = ⟨post⟩ := by
      unfold olcPortion
      rw [hsp]
    have hmem : ':' ∈ code.toList :=
      hdecomp ▸ List.mem_append_right pre (List.mem_cons_self ':' post)
    refine ⟨?_, ?_, ?_, ?_, fun hno => absurd hmem hno⟩
    · rw [hparse, hport]
      cases hd : decode_olc (⟨post⟩ : String) with
      | error e => simp [Except.map]
      | ok a => simp [Except.map]
    · intro e he
      rw [hparse] at he
      cases hd : decode_olc (⟨post⟩ : String) with
      | error e' =>
        rw [hd] at he
        simp only [Except.map] at he
        injection he with he
        exact ⟨_, (he ▸ decode_olc_error _ e' hd : e = .invalidCode ⟨post⟩)⟩
      | ok a =>
        rw [hd] at he
        simp only [Except.map] at he
        cases he
    · intro h2
      have hcount : code.toList.count ':' = post.count ':' + 1 := by
        rw [hdecomp, List.count_append, List.count_eq_zero_of_not_mem hnopre]
        simp [List.count_cons]
      have hpostmem : ':' ∈ post := by
        rw [hcount] at h2
        exact List.count_pos_iff.mp (by omega)
      have herr : decode_olc (⟨post⟩ : String) = .error (.invalidCode ⟨post⟩) :=
        decode_olc_error_of_mem_colon _ hpostmem
      rw [hparse, herr]
      exact ⟨⟨post⟩, rfl⟩
    · intro pre' post' hdec hnopre' area ha
      have : splitColon code.toList = (pre', some post') := by
        rw [hdec]
        exact splitColon_append pre' post' hnopre'
      rw [hsp] at this
      obtain ⟨h1, h2⟩ := Prod.mk.injEq .. ▸ this
      have hpost' : post = post' := by
        injection h2
      subst hpost'
      subst h1
      rw [hparse, ha]
      rfl

/-- Witness for C7 at `"SOM-BNR:6FG22222+22"`: exactly one `':'`, remainder
decodes, `region_code` is the part before the `':'`. -/
theorem parse_failure_characterization_witness :
    decode_somalia_olc "SOM-BNR:6FG22222+22" =
      .ok { code := "6FG22222+22"
            latitude_center := 1 / 16000
            longitude_center := 1 / 16000
            latitude_lo := 0
            longitude_lo := 0
            latitude_hi := 1 / 8000
            longitude_hi := 1 / 8000
            code_length := 10
            region_code := some "SOM-BNR" } := by
  exact (parse_failure_characterization "SOM-BNR:6FG22222+22").2.2.2.1
    "SOM-BNR".toList "6FG22222+22".toList (by decide) (by decide)
    { code := "6FG22222+22"
      latitude_center := 1 / 16000
      longitude_center := 1 / 16000
      latitude_lo := 0
      longitude_lo := 0
      latitude_hi := 1 / 8000
      longitude_hi := 1 / 8000
      code_length := 10
      region_code := none } decode_olc_6FG

/-- C10 counterexample: the claim's example input `":8FJ53PM+"` does not
yield `region_code = ""`; its remainder `"8FJ53PM+"` is not a well-formed
full OLC (its separator sits at odd index 7), so `parse` fails with
`InvalidCode`. -/
theorem parse_region_code_verbatim_counterexample :
    decode_somalia_olc ":8FJ53PM+" = .error (.invalidCode "8FJ53PM+") := rfl

/-- C10 (amended): `parse` attaches the region prefix verbatim with no
validation of its shape: for every input containing a `':'` whose remainder
after the first `':'` decodes as an OLC, the returned `region_code` is exactly
the text before the first `':'` — even when that text is empty (e.g.
`parse(":6FG22222+22")` yields `region_code = ""`) or not of the form
`"SOM-XXX"`. -/
theorem parse_region_code_verbatim (code : String) (pre post : List Char)
    (hsplit : code.toList = pre ++ ':' :: post) (hpre : ':' ∉ pre)
    (area : DecodedArea) (h : decode_olc ⟨post⟩ = .ok area) :
    decode_somalia_olc code = .ok { area with region_code := some (⟨pre⟩ : String) } := by
  unfold decode_somalia_olc
  rw [hsplit, splitColon_append pre post hpre]
  show (decode_olc ⟨post⟩).map _ = _
  rw [h]
  rfl

/-- Witness for C10 at `":6FG22222+22"`: the empty prefix is attached
verbatim, giving `region_code = ""`. -/
theorem parse_region_code_verbatim_witness :
    decode_somalia_olc ":6FG22222+22" =
      .ok { code := "6FG22222+22"
            latitude_center := 1 / 16000
            longitude_center := 1 / 16000
            latitude_lo := 0
            longitude_lo := 0
            latitude_hi := 1 / 8000
            longitude_hi := 1 / 8000
            code_length := 10
            region_code := some "" } :=
  parse_region_code_verbatim ":6FG22222+22" [] "6FG22222+22".toList (by decide)
    (by decide)
    { code := "6FG22222+22"
      latitude_center := 1 / 16000
      longitude_center := 1 / 16000
      latitude_lo := 0
      longitude_lo := 0
      latitude_hi := 1 / 8000
      longitude_hi := 1 / 8000
      code_length := 10
      region_code := none } decode_olc_6FG

/-- C8: `locate(lat, lon)` returns the code of the first table entry — in the
fixed iteration order BNR, HRS, SHB — whose bounding box contains the point,
boundaries inclusive, and `none` when no box contains it; concretely
`locate(2.0469, 45.3182) = BNR`, so `compose(2.0469, 45.3182, None)` returns a
code prefixed `"SOM-BNR:"`. -/
theorem region_locator_first_match (lat lon : ℚ) :
    ((1.8 ≤ lat ∧ lat ≤ 2.2 ∧ 45.0 ≤ lon ∧ lon ≤ 45.6) →
      _get_region_from_coords lat lon = some "BNR") ∧
    (¬(1.8 ≤ lat ∧ lat ≤ 2.2 ∧ 45.0 ≤ lon ∧ lon ≤ 45.6) →
      (9.0 ≤ lat ∧ lat ≤ 10.0 ∧ 43.0 ≤ lon ∧ lon ≤ 45.0) →
      _get_region_from_coords lat lon = some "HRS") ∧
    (¬(1.8 ≤ lat ∧ lat ≤ 2.2 ∧ 45.0 ≤ lon ∧ lon ≤ 45.6) →
      ¬(9.0 ≤ lat ∧ lat ≤ 10.0 ∧ 43.0 ≤ lon ∧ lon ≤ 45.0) →
      (2.0 ≤ lat ∧ lat ≤ 3.0 ∧ 42.0 ≤ lon ∧ lon ≤ 43.0) →
      _get_region_from_coords lat lon = some "SHB") ∧
    (¬(1.8 ≤ lat ∧ lat ≤ 2.2 ∧ 45.0 ≤ lon ∧ lon ≤ 45.6) →
      ¬(9.0 ≤ lat ∧ lat ≤ 10.0 ∧ 43.0 ≤ lon ∧ lon ≤ 45.0) →
      ¬(2.0 ≤ lat ∧ lat ≤ 3.0 ∧ 42.0 ≤ lon ∧ lon ≤ 43.0) →
      _get_region_from_coords lat lon = none) ∧
    _get_region_from_coords 2.0469 45.3182 = some "BNR" ∧
    generate_somalia_olc 2.0469 45.3182 none = .ok ("SOM-BNR:" ++ "6HJ728W9+Q7") := by
  refine ⟨?_, ?_, ?_, ?_, locate_mogadishu, ?_⟩
  · intro h1
    rw [locate_eq, if_pos h1]
  · intro h1 h2
    rw [locate_eq, if_neg h1, if_pos h2]
  · intro h1 h2 h3
    rw [locate_eq, if_neg h1, if_neg h2, if_pos h3]
  · intro h1 h2 h3
    rw [locate_eq, if_neg h1, if_neg h2, if_neg h3]
  · unfold generate_somalia_olc
    rw [generate_olc_mogadishu]
    simp only [Except.bind, Option.getD]
    rw [if_neg (by simp), locate_mogadishu]
    exact congrArg Except.ok (by decide)

/-- Witness for C8: the point `(2, 45.3)` lies in the Banadir box, so the
locator yields `BNR`. -/
theorem region_locator_first_match_witness :
    _get_region_from_coords 2 45.3 = some "BNR" :=
  (region_locator_first_match 2 45.3).1 (by norm_num)

/-! ### Search lemmas -/

lemma districtScan_length (q : String) (limit : ℕ) :
    ∀ (ds : List District) (seen : List String) (count : ℕ), count < limit →
      (districtScan q limit ds seen count).1.length ≤ limit - count := by
  intro ds
  induction ds with
  | nil =>
    intro seen count h
    simp [districtScan]
  | cons d rest ih =>
    intro seen count h
    simp only [districtScan]
    by_cases hm : districtMatches q d = true
    · rw [if_pos hm]
      by_cases hs : districtId d ∈ seen
      · rw [if_pos hs]
        exact ih seen count h
      · rw [if_neg hs]
        by_cases hl : limit ≤ count + 1
        · rw [if_pos hl]
          simp
          omega
        · rw [if_neg hl]
          have := ih (districtId d :: seen) (count + 1) (by omega)
          simp
          omega
    · rw [if_neg hm]
      exact ih seen count h

lemma regionScan_length : ∀ (rs : List Region) (seen : List String),
    (regionScan rs seen).length ≤ rs.length := by
  intro rs
  induction rs with
  | nil =>
    intro seen
    simp [regionScan]
  | cons r rest ih =>
    intro seen
    simp only [regionScan]
    by_cases hs : r.code ∈ seen
    · rw [if_pos hs]
      exact le_trans (ih seen) (by simp)
    · rw [if_neg hs]
      simp only [List.length_cons]
      exact Nat.succ_le_succ (ih (r.code :: seen))

lemma districtScan_nodup (q : String) (limit : ℕ) :
    ∀ (ds : List District) (seen : List String) (count : ℕ),
      (((districtScan q limit ds seen count).1.map PlaceSearchResult.id).Nodup ∧
        ∀ i ∈ (districtScan q limit ds seen count).1.map PlaceSearchResult.id,
          i ∉ seen) := by
  intro ds
  induction ds with
  | nil =>
    intro seen count
    simp [districtScan]
  | cons d rest ih =>
    intro seen count
    simp only [districtScan]
    by_cases hm : districtMatches q d = true
    · rw [if_pos hm]
      by_cases hs : districtId d ∈ seen
      · rw [if_pos hs]
        exact ih seen count
      · rw [if_neg hs]
        by_cases hl : limit ≤ count + 1
        · rw [if_pos hl]
          constructor
          · simp
          · intro i hi
            simp only [mkDistrictResult] at hi
            simp at hi
            subst hi
            exact hs
        · rw [if_neg hl]
          obtain ⟨ihn, ihs⟩ := ih (districtId d :: seen) (count + 1)
          constructor
          · simp only [List.map_cons, List.nodup_cons]
            refine ⟨fun hmem => ?_, ihn⟩
            exact (ihs _ hmem) (List.mem_cons_self _ _)
          · intro i hi
            simp only [List.map_cons, List.mem_cons] at hi
            rcases hi with rfl | hi
            · exact hs
            · exact fun hmem => (ihs i hi) (List.mem_cons_of_mem _ hmem)
    · rw [if_neg hm]
      exact ih seen count

lemma regionScan_nodup : ∀ (rs : List Region) (seen : List String),
    (((regionScan rs seen).map PlaceSearchResult.id).Nodup ∧
      ∀ i ∈ (regionScan rs seen).map PlaceSearchResult.id, i ∉ seen) := by
  intro rs
  induction rs with
  | nil =>
    intro seen
    simp [regionScan]
  | cons r rest ih =>
    intro seen
    simp only [regionScan]
    by_cases hs : r.code ∈ seen
    · rw [if_pos hs]
      exact ih seen
    · rw [if_neg hs]
      obtain ⟨ihn, ihs⟩ := ih (r.code :: seen)
      constructor
      · simp only [List.map_cons, List.nodup_cons]
        refine ⟨fun hmem => ?_, ihn⟩
        exact (ihs _ hmem) (List.mem_cons_self _ _)
      · intro i hi
        simp only [List.map_cons, List.mem_cons] at hi
        rcases hi with rfl | hi
        · exact hs
        · exact fun hmem => (ihs i hi) (List.mem_cons_of_mem _ hmem)

lemma districtScan_seen (q : String) (limit : ℕ) :
    ∀ (ds : List District) (seen : List String) (count : ℕ),
      (districtScan q limit ds seen count).2 =
        ((districtScan q limit ds seen count).1.map PlaceSearchResult.id).reverse
          ++ seen := by
  intro ds
  induction ds with
  | nil =>
    intro seen count
    simp [districtScan]
  | cons d rest ih =>
    intro seen count
    simp only [districtScan]
    by_cases hm : districtMatches q d = true
    · rw [if_pos hm]
      by_cases hs : districtId d ∈ seen
      · rw [if_pos hs]
        exact ih seen count
      · rw [if_neg hs]
        by_cases hl : limit ≤ count + 1
        · rw [if_pos hl]
          simp [mkDistrictResult]
        · rw [if_neg hl]
          have := ih (districtId d :: seen) (count + 1)
          simp only [List.map_cons, List.reverse_cons, List.append_assoc]
          simp at this ⊢
          rw [this]
          simp [mkDistrictResult]
    · rw [if_neg hm]
      exact ih seen count

lemma districtScan_first (q : String) (limit : ℕ) :
    ∀ (ds : List District) (seen : List String) (count : ℕ),
      ∀ r ∈ (districtScan q limit ds seen count).1,
        ∃ pre d post, ds = pre ++ d :: post ∧ districtMatches q d = true ∧
          districtId d ∉ seen ∧ r = mkDistrictResult d ∧
          ∀ d' ∈ pre, districtMatches q d' = true →
            districtId d' ≠ districtId d := by
  intro ds
  induction ds with
  | nil =>
    intro seen count r hr
    simp [districtScan] at hr
  | cons d rest ih =>
    intro seen count r hr
    simp only [districtScan] at hr
    by_cases hm : districtMatches q d = true
    · rw [if_pos hm] at hr
      by_cases hs : districtId d ∈ seen
      · rw [if_pos hs] at hr
        obtain ⟨pre, d', post, hds, hm', hs', hr', hfirst⟩ := ih seen count r hr
        refine ⟨d :: pre, d', post, by rw [hds]; rfl, hm', hs', hr', ?_⟩
        intro d'' hd'' hm''
        rcases List.mem_cons.mp hd'' with rfl | hd''
        · exact fun heq => hs' (heq ▸ hs)
        · exact hfirst d'' hd'' hm''
      · rw [if_neg hs] at hr
        by_cases hl : limit ≤ count + 1
        · rw [if_pos hl] at hr
          simp at hr
          subst hr
          exact ⟨[], d, rest, rfl, hm, hs, rfl, by simp⟩
        · rw [if_neg hl] at hr
          simp only [] at hr
          rcases List.mem_cons.mp hr with rfl | hr
          · exact ⟨[], d, rest, rfl, hm, hs, rfl, by simp⟩
          · obtain ⟨pre, d', post, hds, hm', hs', hr', hfirst⟩ :=
              ih (districtId d :: seen) (count + 1) r hr
            refine ⟨d :: pre, d', post, by rw [hds]; rfl, hm',
              fun hmem => hs' (List.mem_cons_of_mem _ hmem), hr', ?_⟩
            intro d'' hd'' hm''
            rcases List.mem_cons.mp hd'' with rfl | hd''
            · exact fun heq => hs' (heq ▸ List.mem_cons_self _ _)
            · exact hfirst d'' hd'' hm''
    · rw [if_neg hm] at hr
      obtain ⟨pre, d', post, hds, hm', hs', hr', hfirst⟩ := ih seen count r hr
      refine ⟨d :: pre, d', post, by rw [hds]; rfl, hm', hs', hr', ?_⟩
      intro d'' hd'' hm''
      rcases List.mem_cons.mp hd'' with rfl | hd''
      · exact absurd hm'' hm
      · exact hfirst d'' hd'' hm''

lemma regionScan_mem : ∀ (rs : List Region) (seen : List String),
    ∀ r ∈ regionScan rs seen, ∃ g, g ∈ rs ∧ r = mkRegionResult g := by
  intro rs
  induction rs with
  | nil =>
    intro seen r hr
    simp [regionScan] at hr
  | cons g rest ih =>
    intro seen r hr
    simp only [regionScan] at hr
    by_cases hs : g.code ∈ seen
    · rw [if_pos hs] at hr
      obtain ⟨g', hg', hr'⟩ := ih seen r hr
      exact ⟨g', List.mem_cons_of_mem _ hg', hr'⟩
    · rw [if_neg hs] at hr
      rcases List.mem_cons.mp hr with rfl | hr
      · exact ⟨g, List.mem_cons_self _ _, rfl⟩
      · obtain ⟨g', hg', hr'⟩ := ih (g.code :: seen) r hr
        exact ⟨g', List.mem_cons_of_mem _ hg', hr'⟩

lemma districtPhase_mem (db : Dataset) (q : String) (limit : ℕ) :
    ∀ r ∈ (districtPhase db q limit).1,
      ∃ d, d ∈ db.districts ∧ districtMatches q d = true ∧
        r = mkDistrictResult d := by
  intro r hr
  obtain ⟨pre, d, post, hds, hm, _, hr', _⟩ :=
    districtScan_first q limit (districtCandidates db q limit) [] 0 r hr
  have hd : d ∈ districtCandidates db q limit := by
    rw [hds]
    exact List.mem_append_right _ (List.mem_cons_self _ _)
  exact ⟨d, List.mem_of_mem_filter (List.mem_of_mem_take hd), hm, hr'⟩

/-! ### Claim theorems for the search engine -/

/-- C4: for every query and `limit ≥ 1`, `search` returns at most `limit`
results: the district scan emits at most `limit` results (breaking as soon as
`limit` are assembled) and the region fetch is capped at `limit` minus the
number of district results. -/
theorem search_limit (db : Dataset) (name : String) (limit : ℕ)
    (h : 1 ≤ limit) :
    (search_places db name limit).length ≤ limit ∧
    (districtPhase db (lowerStr name) limit).1.length ≤ limit ∧
    (regionCandidates db (lowerStr name)
        (limit - (districtPhase db (lowerStr name) limit).1.length)).length ≤
      limit - (districtPhase db (lowerStr name) limit).1.length := by
  have hd : (districtPhase db (lowerStr name) limit).1.length ≤ limit := by
    have := districtScan_length (lowerStr name) limit
      (districtCandidates db (lowerStr name) limit) [] 0 (by omega)
    simpa using this
  have hrc : ∀ budget, (regionCandidates db (lowerStr name) budget).length ≤
      budget := by
    intro budget
    unfold regionCandidates
    rw [List.length_take]
    exact min_le_left _ _
  refine ⟨?_, hd, hrc _⟩
  simp only [search_places]
  by_cases hlt : (districtPhase db (lowerStr name) limit).1.length < limit
  · rw [if_pos hlt, List.length_append]
    have hr := le_trans
      (regionScan_length
        (regionCandidates db (lowerStr name)
          (limit - (districtPhase db (lowerStr name) limit).1.length))
        (districtPhase db (lowerStr name) limit).2)
      (hrc (limit - (districtPhase db (lowerStr name) limit).1.length))
    omega
  · rw [if_neg hlt]
    exact hd

/-- Witness for C4 on the Banadir dataset with query `"banadir"` and
limit 5. -/
theorem search_limit_witness :
    (search_places banadirDataset "banadir" 5).length ≤ 5 ∧
    (districtPhase banadirDataset (lowerStr "banadir") 5).1.length ≤ 5 ∧
    (regionCandidates banadirDataset (lowerStr "banadir")
        (5 - (districtPhase banadirDataset (lowerStr "banadir") 5).1.length)).length ≤
      5 - (districtPhase banadirDataset (lowerStr "banadir") 5).1.length :=
  search_limit banadirDataset "banadir" 5 (by norm_num)

/-- C5: search results are deduplicated by computed `id` — the returned ids
are pairwise distinct (so two districts sharing a computed id contribute at
most one result) — and the district result kept for an id is built from the
first matching candidate with that id in scan order; districts are scanned
before regions. -/
theorem search_dedup_first_wins (db : Dataset) (name : String) (limit : ℕ) :
    ((search_places db name limit).map PlaceSearchResult.id).Nodup ∧
    (∀ r ∈ (districtPhase db (lowerStr name) limit).1,
      ∃ pre d post,
        districtCandidates db (lowerStr name) limit = pre ++ d :: post ∧
        districtMatches (lowerStr name) d = true ∧
        r = mkDistrictResult d ∧
        ∀ d' ∈ pre, districtMatches (lowerStr name) d' = true →
          districtId d' ≠ districtId d) ∧
    search_places db name limit =
      (districtPhase db (lowerStr name) limit).1 ++
        (search_places db name limit).drop
          (districtPhase db (lowerStr name) limit).1.length := by
  obtain ⟨hdn, _⟩ := districtScan_nodup (lowerStr name) limit
    (districtCandidates db (lowerStr name) limit) [] 0
  have hseen : (districtPhase db (lowerStr name) limit).2 =
      ((districtPhase db (lowerStr name) limit).1.map
        PlaceSearchResult.id).reverse ++ [] :=
    districtScan_seen (lowerStr name) limit
      (districtCandidates db (lowerStr name) limit) [] 0
  refine ⟨?_, ?_, ?_⟩
  · simp only [search_places]
    by_cases hlt : (districtPhase db (lowerStr name) limit).1.length < limit
    · rw [if_pos hlt, List.map_append, List.nodup_append]
      obtain ⟨hrn, hrs⟩ := regionScan_nodup
        (regionCandidates db (lowerStr name)
          (limit - (districtPhase db (lowerStr name) limit).1.length))
        (districtPhase db (lowerStr name) limit).2
      refine ⟨hdn, hrn, ?_⟩
      intro a ha hb
      have := hrs a hb
      rw [hseen] at this
      simp only [List.append_nil] at this
      exact this (List.mem_reverse.mpr ha)
    · rw [if_neg hlt]
      exact hdn
  · intro r hr
    obtain ⟨pre, d, post, hds, hm, _, hr', hfirst⟩ :=
      districtScan_first (lowerStr name) limit
        (districtCandidates db (lowerStr name) limit) [] 0 r hr
    exact ⟨pre, d, post, hds, hm, hr', hfirst⟩
  · simp only [search_places]
    by_cases hlt : (districtPhase db (lowerStr name) limit).1.length < limit
    · rw [if_pos hlt, List.drop_left]
    · rw [if_neg hlt, List.drop_length, List.append_nil]

/-- Witness for C5 on the Banadir dataset: the two result ids are distinct. -/
theorem search_dedup_first_wins_witness :
    ((search_places banadirDataset "banadir" 5).map PlaceSearchResult.id).Nodup :=
  (search_dedup_first_wins banadirDataset "banadir" 5).1

/-- C9: every district result's `id` is the district's `code` when non-empty
and otherwise `"SOM-"` + first three characters of the region name uppercased
+ `"-"` + first three characters of the district name uppercased; every
region result's `id` is the region's `code` directly. -/
theorem search_result_identity (db : Dataset) (name : String) (limit : ℕ) :
    ∀ r ∈ search_places db name limit,
      (∃ d, d ∈ db.districts ∧ r = mkDistrictResult d ∧ r.type = "district" ∧
        r.id = (if d.code ≠ "" then d.code
          else "SOM-" ++ (d.region_name.take 3).toUpper ++ "-" ++
            (d.name.take 3).toUpper)) ∨
      (∃ g, g ∈ db.regions ∧ r = mkRegionResult g ∧ r.type = "region" ∧
        r.id = g.code) := by
  intro r hr
  simp only [search_places] at hr
  by_cases hlt : (districtPhase db (lowerStr name) limit).1.length < limit
  · rw [if_pos hlt] at hr
    rcases List.mem_append.mp hr with hr | hr
    · left
      obtain ⟨d, hd, _, hr'⟩ := districtPhase_mem db (lowerStr name) limit r hr
      subst hr'
      exact ⟨d, hd, rfl, rfl, rfl⟩
    · right
      obtain ⟨g, hg, hr'⟩ := regionScan_mem _ _ r hr
      subst hr'
      have hg' : g ∈ db.regions :=
        List.mem_of_mem_filter (List.mem_of_mem_take hg)
      exact ⟨g, hg', rfl, rfl, rfl⟩
  · rw [if_neg hlt] at hr
    left
    obtain ⟨d, hd, _, hr'⟩ := districtPhase_mem db (lowerStr name) limit r hr
    subst hr'
    exact ⟨d, hd, rfl, rfl, rfl⟩

/-- Witness for C9: the region result for Banadir carries `id = "SOM-BNR"`,
the region's code. -/
theorem search_result_identity_witness :
    (∃ d, d ∈ banadirDataset.districts ∧
      ({ id := "SOM-BNR", name := "Banadir", region := "Banadir",
         type := "region", aliases := none, centroid := none,
         population := none } : PlaceSearchResult) = mkDistrictResult d ∧
      ("region" : String) = "district" ∧
      ("SOM-BNR" : String) = (if d.code ≠ "" then d.code
        else "SOM-" ++ (d.region_name.take 3).toUpper ++ "-" ++
          (d.name.take 3).toUpper)) ∨
    (∃ g, g ∈ banadirDataset.regions ∧
      ({ id := "SOM-BNR", name := "Banadir", region := "Banadir",
         type := "region", aliases := none, centroid := none,
         population := none } : PlaceSearchResult) = mkRegionResult g ∧
      ("region" : String) = "region" ∧ ("SOM-BNR" : String) = g.code) :=
  search_result_identity banadirDataset "banadir" 5
    { id := "SOM-BNR", name := "Banadir", region := "Banadir",
      type := "region", aliases := none, centroid := none,
      population := none } (by decide)

/-- C1 (code bug): a district whose name and region name do not contain the
query, but one of whose aliases does, is never returned: the storage fetch in
`search_places` filters on name/region name only, so alias-only matches are
not fetched and the in-loop alias check cannot recover them — contradicting
the endpoint's own docstring ("Searches in district names, region names, and
aliases").  Concretely, district "Beledweyne" with alias "Beletweyne" is not
returned by `search("beletweyne", 10)`. -/
theorem alias_only_match_not_returned :
    search_places hiiraanDataset "beletweyne" 10 = [] ∧
    districtMatches (lowerStr "beletweyne")
      { name := "Beledweyne", code := "", region_name := "Hiiraan",
        population := none, aliases := some ["Beletweyne"],
        centroid := none } = true ∧
    districtFetchCond (lowerStr "beletweyne")
      { name := "Beledweyne", code := "", region_name := "Hiiraan",
        population := none, aliases := some ["Beletweyne"],
        centroid := none } = false := by
  refine ⟨by decide, by decide, by decide⟩

end SomaliGeo
